import Mathlib

/-!
Verification of the `generate_ico.py` image-to-ICO conversion script.

The script is a single linear pipeline: check that the input path exists,
derive an output stem via extension stripping, decode the image, normalize
it to RGBA, canonicalize it to 256x256 with the LANCZOS filter, and emit
four single-size ICO files (32, 64, 128, 256) by resizing the canonical
bitmap. Errors inside the pipeline are caught and turned into a `False`
return; the command-line entry point maps that to exit code 1.

The embedding models the filesystem as an association list from path to
file data, the console as a list of messages, and the external imaging
library (PIL) calls by explicit Lean functions: decoding yields the stored
bitmap, `convert` to RGBA synthesizes a fully opaque alpha channel, and
`resize` returns an image of the requested dimensions whose bands are
produced independently by an abstract resampling kernel (a parameter of
the environment), matching PIL's band-wise resampling.
-/

set_option autoImplicit false

namespace GenerateIco

/-- A single band of a bitmap: pixel value at coordinates (x, y). -/
abbrev Channel := Nat → Nat → Nat

/-- Pixel formats relevant to the script: `RGBA` (the normalized target),
and the alpha-less formats `RGB` and `L` (grayscale, stored in band `r`). -/
inductive Mode where
  | RGB
  | RGBA
  | L
deriving DecidableEq, Repr

/-- An in-memory decoded bitmap: dimensions, pixel format, and four bands.
For `RGB` the `a` band is unused; for `L` only `r` is the gray band. -/
structure Image where
  width : Nat
  height : Nat
  mode : Mode
  r : Channel
  g : Channel
  b : Channel
  a : Channel

/-- Resampling filters; the script only ever passes `LANCZOS`. -/
inductive Filter where
  | NEAREST
  | LANCZOS
deriving DecidableEq, Repr

/-- An abstract resampling kernel: given a source band, source dimensions,
target dimensions and a filter, produce the target band. The real Lanczos
kernel lives in the imaging library; the embedding keeps it abstract. -/
abbrev Kernel := Channel → Nat × Nat → Nat × Nat → Filter → Channel

/-- Modelled from the library contract of PIL `Image.resize`: the result
has exactly the requested dimensions, keeps the mode, and each band is
resampled independently by the kernel with the given filter. -/
def Image.resize (k : Kernel) (img : Image) (sz : Nat × Nat) (f : Filter) : Image :=
  { width := sz.1
    height := sz.2
    mode := img.mode
    r := k img.r (img.width, img.height) sz f
    g := k img.g (img.width, img.height) sz f
    b := k img.b (img.width, img.height) sz f
    a := k img.a (img.width, img.height) sz f }

/-- Modelled from PIL `img.convert` to RGBA: an image already in RGBA is
returned unchanged; an alpha-less image keeps its color data losslessly
(grayscale is replicated across the color bands) and receives a fully
opaque alpha band. -/
def Image.convertRGBA (img : Image) : Image :=
  match img.mode with
  | Mode.RGBA => img
  | Mode.RGB => { img with mode := Mode.RGBA, a := fun _ _ => 255 }
  | Mode.L =>
      { img with mode := Mode.RGBA, g := img.r, b := img.r, a := fun _ _ => 255 }

/-- Contents of a file on disk: a decodable image, an undecodable file, or
a written single-size ICO container holding one bitmap. -/
inductive FileData where
  | image (img : Image)
  | corrupt
  | ico (sz : Nat × Nat) (img : Image)

/-- Modelled from PIL `Image.open`: decodable files yield their bitmap,
corrupt files fail; a previously written ICO container is decodable. -/
def FileData.decode : FileData → Option Image
  | FileData.image img => some img
  | FileData.corrupt => none
  | FileData.ico _ img => some img

/-- The environment of a run: the filesystem (path-to-data association
list), which paths are writable (a failed write raises inside the `try`
block), and the library's resampling kernel. -/
structure Env where
  fs : List (String × FileData)
  writeOk : String → Bool
  kernel : Kernel

/-- Console messages printed by the script, one constructor per `print`
call site. -/
inductive Msg where
  | errNotFound (path : String)
  | adjust (src tgt : Nat × Nat)
  | generated (file : String) (sz : Nat × Nat)
  | summary (n : Nat)
  | err (msg : String)
  | usage
deriving DecidableEq, Repr

/-- Index of the last occurrence of `c` in `cs`, if any. -/
def rfindIdx (cs : List Char) (c : Char) : Option Nat :=
  (cs.reverse.findIdx? (fun x => x = c)).map (fun i => cs.length - 1 - i)

/-- `os.path.splitext(p)[0]` (POSIX): drop the extension beginning at the
last dot that comes after the last path separator, unless every character
between the separator and that dot is itself a dot (leading-dot names such
as `.bashrc` keep their dot). -/
def splitextRoot (p : String) : String :=
  let cs := p.toList
  match rfindIdx cs '.' with
  | none => p
  | some d =>
    let s := match rfindIdx cs '/' with
      | none => 0
      | some si => si + 1
    if s ≤ d ∧ ((cs.drop s).take (d - s)).any (fun x => x ≠ '.') then
      String.mk (cs.take d)
    else p

/-- Python truthiness of the optional `output_path` argument: `None` and
the empty string are falsy. -/
def truthy : Option String → Bool
  | none => false
  | some s => s != ""

/-- The stem used for all four output names: from `output_path` when it is
truthy, otherwise from `input_path`, in both cases via `splitext`. -/
def stemOf (input_path : String) (output_path : Option String) : String :=
  if truthy output_path then splitextRoot (output_path.getD "")
  else splitextRoot input_path

/-- The fixed list of target sizes, in emission order. -/
def sizes : List (Nat × Nat) := [(32, 32), (64, 64), (128, 128), (256, 256)]

/-- Output file name for a stem and target size: the f-string
`{base_name}_{size[0]}.ico`. -/
def outName (base : String) (sz : Nat × Nat) : String :=
  base ++ ("_" ++ (toString sz.1 ++ ".ico"))

/-- Result of the per-size emission loop: files written so far in order,
messages printed, and the error message of the raised exception, if any. -/
structure LoopOut where
  writes : List (String × FileData)
  msgs : List Msg
  failure : Option String

/-- The `for size in sizes` loop: resize the canonical bitmap, save it as a
single-size ICO container, print a notice; a failed save raises, ending
the loop with the files already written still on disk. -/
def emitLoop (k : Kernel) (wOk : String → Bool) (base : String) (img : Image) :
    List (Nat × Nat) → LoopOut
  | [] => ⟨[], [], none⟩
  | sz :: rest =>
    let resized := Image.resize k img sz Filter.LANCZOS
    let file := outName base sz
    if wOk file then
      let out := emitLoop k wOk base img rest
      ⟨(file, FileData.ico sz resized) :: out.writes,
       Msg.generated file sz :: out.msgs, out.failure⟩
    else
      ⟨[], [], some ("cannot write " ++ file)⟩

/-- Result of one `generate_ico` call: the boolean return value, the
console transcript, and the files written, in order. -/
structure ConvertResult where
  ok : Bool
  console : List Msg
  writes : List (String × FileData)

/-- The color-mode normalization step of `generate_ico`: convert to RGBA
unless the decoded image is already RGBA. -/
def normalizeMode (img0 : Image) : Image :=
  if img0.mode ≠ Mode.RGBA then img0.convertRGBA else img0

/-- The canonical working bitmap: the decoded image normalized to RGBA and,
when its dimensions are not exactly 256x256, resized to 256x256 with the
LANCZOS filter. -/
def canonicalOf (k : Kernel) (img0 : Image) : Image :=
  if (normalizeMode img0).width ≠ 256 ∨ (normalizeMode img0).height ≠ 256 then
    Image.resize k (normalizeMode img0) (256, 256) Filter.LANCZOS
  else normalizeMode img0

/-- The full `generate_ico(input_path, output_path)` function: existence
check, stem derivation, decode, RGBA normalization, canonical resize with
its console notice, the per-size emission loop, and the catch-all `except`
that turns any raised error into a `False` return. -/
def generate_ico (env : Env) (input_path : String) (output_path : Option String) :
    ConvertResult :=
  match env.fs.lookup input_path with
  | none => ⟨false, [Msg.errNotFound input_path], []⟩
  | some data =>
    let base_name := stemOf input_path output_path
    match data.decode with
    | none => ⟨false, [Msg.err "cannot identify image file"], []⟩
    | some img0 =>
      let img1 := if img0.mode ≠ Mode.RGBA then img0.convertRGBA else img0
      let adjMsgs : List Msg :=
        if img1.width ≠ 256 ∨ img1.height ≠ 256 then
          [Msg.adjust (img1.width, img1.height) (256, 256)]
        else []
      let img2 :=
        if img1.width ≠ 256 ∨ img1.height ≠ 256 then
          Image.resize env.kernel img1 (256, 256) Filter.LANCZOS
        else img1
      let out := emitLoop env.kernel env.writeOk base_name img2 sizes
      match out.failure with
      | none => ⟨true, adjMsgs ++ out.msgs ++ [Msg.summary sizes.length], out.writes⟩
      | some e => ⟨false, adjMsgs ++ out.msgs ++ [Msg.err e], out.writes⟩

/-- The size-adjustment notices printed by the canonicalization step of
`generate_ico` on a decoded image `img0`. -/
def adjNotices (img0 : Image) : List Msg :=
  if (normalizeMode img0).width ≠ 256 ∨ (normalizeMode img0).height ≠ 256 then
    [Msg.adjust ((normalizeMode img0).width, (normalizeMode img0).height) (256, 256)]
  else []

/-- Final console message of the `try` block: the success summary, or the
caught error message. -/
def tailMsg : Option String → Msg
  | none => Msg.summary sizes.length
  | some e => Msg.err e

/-- The command-line entry point `main`: with fewer than two `argv` entries
print usage and exit 1; otherwise run the conversion on `argv[1]` with
optional base `argv[2]` and exit 0 on success, 1 on failure. -/
def mainRun (env : Env) (argv : List String) : Nat × ConvertResult :=
  match argv with
  | _ :: input_path :: rest =>
    let res := generate_ico env input_path rest.head?
    (if res.ok then 0 else 1, res)
  | _ => (1, ⟨false, [Msg.usage], []⟩)

/-- Overwrite-or-insert a file into the filesystem. -/
def setFile (fs : List (String × FileData)) (name : String) (d : FileData) :
    List (String × FileData) :=
  (name, d) :: fs.filter (fun p => p.1 != name)

/-- The filesystem after a run: each written file lands on disk in order,
overwriting any previous entry; nothing is ever rolled back. -/
def fsAfter (env : Env) (res : ConvertResult) : List (String × FileData) :=
  res.writes.foldl (fun fs w => setFile fs w.1 w.2) env.fs

/-- Observable shape of a written file: its name and, for an ICO container,
the declared size together with the stored bitmap's pixel dimensions. -/
def writeInfo : String × FileData → String × Option ((Nat × Nat) × (Nat × Nat))
  | (name, FileData.ico sz img) => (name, some (sz, (img.width, img.height)))
  | (name, _) => (name, none)

/-- A kernel preserves constant bands: resampling a band that is everywhere
`v` yields a band that is everywhere `v` (true of any normalized filter). -/
def PreservesConst (k : Kernel) : Prop :=
  ∀ (c : Channel) (v : Nat) (s t : Nat × Nat) (f : Filter),
    (∀ x y, c x y = v) → ∀ x y, k c s t f x y = v

/-- A band constant at `v`. -/
def constChannel (v : Nat) : Channel := fun _ _ => v

/-- A concrete nearest-neighbor-style kernel used to instantiate theorems. -/
def nearestKernel : Kernel :=
  fun c s t _ x y => c (x * s.1 / t.1) (y * s.2 / t.2)

/-- A concrete 300 x 200 RGB test bitmap. -/
def sampleImage : Image :=
  ⟨300, 200, Mode.RGB, constChannel 10, constChannel 20, constChannel 30, constChannel 0⟩

/-- A second concrete test bitmap, 256 x 256 and already RGBA. -/
def squareImage : Image :=
  ⟨256, 256, Mode.RGBA, constChannel 1, constChannel 2, constChannel 3, constChannel 4⟩

/-- Environment with one decodable input file and all paths writable. -/
def envA : Env :=
  ⟨[("logo.png", FileData.image sampleImage)], fun _ => true, nearestKernel⟩

/-- Environment with a differently named decodable input file. -/
def envB : Env :=
  ⟨[("pic.png", FileData.image sampleImage)], fun _ => true, nearestKernel⟩

/-- Environment with a 256 x 256 RGBA input file. -/
def envSq : Env :=
  ⟨[("icon.png", FileData.image squareImage)], fun _ => true, nearestKernel⟩

/-- Environment in which the write of `logo_128.ico` fails. -/
def envFail : Env :=
  ⟨[("logo.png", FileData.image sampleImage)],
   fun s => s != "logo_128.ico", nearestKernel⟩

/-- Environment in which every write fails. -/
def envNoWrite : Env :=
  ⟨[("logo.png", FileData.image sampleImage)], fun _ => false, nearestKernel⟩

/-- Environment whose only file exists but cannot be decoded. -/
def envCorrupt : Env :=
  ⟨[("bad.png", FileData.corrupt)], fun _ => true, nearestKernel⟩

/-- A concrete 300 x 200 grayscale (mode L) test bitmap; the gray band is
`r`, the other bands are unused. -/
def grayImage : Image :=
  ⟨300, 200, Mode.L, constChannel 7, constChannel 0, constChannel 0, constChannel 0⟩

/-- Environment with one decodable grayscale input file. -/
def envL : Env :=
  ⟨[("gray.png", FileData.image grayImage)], fun _ => true, nearestKernel⟩

/-! ### Helper lemmas -/

theorem convertRGBA_width (img : Image) : img.convertRGBA.width = img.width := by
  unfold Image.convertRGBA
  cases img.mode <;> rfl

theorem convertRGBA_height (img : Image) : img.convertRGBA.height = img.height := by
  unfold Image.convertRGBA
  cases img.mode <;> rfl

theorem convertRGBA_mode (img : Image) : img.convertRGBA.mode = Mode.RGBA := by
  unfold Image.convertRGBA
  cases h : img.mode <;> simp [h]

theorem convertRGBA_alpha (img : Image) (h : img.mode ≠ Mode.RGBA) :
    ∀ x y, img.convertRGBA.a x y = 255 := by
  unfold Image.convertRGBA
  cases hm : img.mode <;> simp_all

theorem generate_ico_of_decode (env : Env) (input : String) (outp : Option String)
    (d : FileData) (img0 : Image)
    (h1 : env.fs.lookup input = some d) (h2 : d.decode = some img0) :
    generate_ico env input outp =
      ⟨(emitLoop env.kernel env.writeOk (stemOf input outp)
          (canonicalOf env.kernel img0) sizes).failure.isNone,
       adjNotices img0 ++
         (emitLoop env.kernel env.writeOk (stemOf input outp)
           (canonicalOf env.kernel img0) sizes).msgs ++
         [tailMsg (emitLoop env.kernel env.writeOk (stemOf input outp)
           (canonicalOf env.kernel img0) sizes).failure],
       (emitLoop env.kernel env.writeOk (stemOf input outp)
         (canonicalOf env.kernel img0) sizes).writes⟩ := by
  unfold generate_ico
  rw [h1]
  simp only
  rw [h2]
  simp only [canonicalOf, adjNotices, normalizeMode]
  cases hf : (emitLoop env.kernel env.writeOk (stemOf input outp)
      (if (if img0.mode ≠ Mode.RGBA then img0.convertRGBA else img0).width ≠ 256 ∨
          (if img0.mode ≠ Mode.RGBA then img0.convertRGBA else img0).height ≠ 256 then
        Image.resize env.kernel
          (if img0.mode ≠ Mode.RGBA then img0.convertRGBA else img0) (256, 256)
          Filter.LANCZOS
      else if img0.mode ≠ Mode.RGBA then img0.convertRGBA else img0) sizes).failure <;>
    simp [tailMsg, hf]

theorem emitLoop_all_ok (k : Kernel) (wOk : String → Bool) (base : String) (img : Image)
    (l : List (Nat × Nat)) (h : ∀ sz ∈ l, wOk (outName base sz) = true) :
    emitLoop k wOk base img l =
      ⟨l.map (fun sz =>
          (outName base sz, FileData.ico sz (Image.resize k img sz Filter.LANCZOS))),
       l.map (fun sz => Msg.generated (outName base sz) sz), none⟩ := by
  induction l with
  | nil => rfl
  | cons sz rest ih =>
    have hsz : wOk (outName base sz) = true := h sz (List.mem_cons_self sz rest)
    have hrest : ∀ s ∈ rest, wOk (outName base s) = true :=
      fun s hs => h s (List.mem_cons_of_mem sz hs)
    simp [emitLoop, hsz, ih hrest]

theorem emitLoop_fail_at (k : Kernel) (wOk : String → Bool) (base : String) (img : Image)
    (pre : List (Nat × Nat)) (sz : Nat × Nat) (suf : List (Nat × Nat))
    (hpre : ∀ s ∈ pre, wOk (outName base s) = true)
    (hsz : wOk (outName base sz) = false) :
    emitLoop k wOk base img (pre ++ sz :: suf) =
      ⟨pre.map (fun s =>
          (outName base s, FileData.ico s (Image.resize k img s Filter.LANCZOS))),
       pre.map (fun s => Msg.generated (outName base s) s),
       some ("cannot write " ++ outName base sz)⟩ := by
  induction pre with
  | nil => simp [emitLoop, hsz]
  | cons p rest ih =>
    have hp : wOk (outName base p) = true := hpre p (List.mem_cons_self p rest)
    have hrest : ∀ s ∈ rest, wOk (outName base s) = true :=
      fun s hs => hpre s (List.mem_cons_of_mem p hs)
    simp [emitLoop, hp, ih hrest]

theorem emitLoop_writes_shape (k : Kernel) (wOk : String → Bool) (base : String)
    (img : Image) (l : List (Nat × Nat)) :
    ∀ w ∈ (emitLoop k wOk base img l).writes, ∃ sz ∈ l,
      w = (outName base sz, FileData.ico sz (Image.resize k img sz Filter.LANCZOS)) := by
  induction l with
  | nil => intro w hw; simp [emitLoop] at hw
  | cons sz rest ih =>
    intro w hw
    by_cases hsz : wOk (outName base sz) = true
    · simp [emitLoop, hsz] at hw
      rcases hw with hw | hw
      · exact ⟨sz, List.mem_cons_self sz rest, hw⟩
      · obtain ⟨s, hs, hws⟩ := ih w hw
        exact ⟨s, List.mem_cons_of_mem sz hs, hws⟩
    · simp [emitLoop, hsz] at hw

theorem emitLoop_no_adjust (k : Kernel) (wOk : String → Bool) (base : String)
    (img : Image) (l : List (Nat × Nat)) :
    ∀ s t, Msg.adjust s t ∉ (emitLoop k wOk base img l).msgs := by
  induction l with
  | nil => intro s t h; simp [emitLoop] at h
  | cons sz rest ih =>
    intro s t h
    by_cases hsz : wOk (outName base sz) = true
    · simp [emitLoop, hsz] at h
      exact ih s t h
    · simp [emitLoop, hsz] at h

theorem canonicalOf_width (k : Kernel) (img0 : Image) :
    (canonicalOf k img0).width = 256 := by
  rw [canonicalOf]
  split
  · rfl
  · next h =>
    push_neg at h
    exact h.1

theorem canonicalOf_height (k : Kernel) (img0 : Image) :
    (canonicalOf k img0).height = 256 := by
  rw [canonicalOf]
  split
  · rfl
  · next h =>
    push_neg at h
    exact h.2

theorem normalizeMode_alpha (img0 : Image) (h : img0.mode ≠ Mode.RGBA) :
    ∀ x y, (normalizeMode img0).a x y = 255 := by
  rw [normalizeMode, if_pos h]
  exact convertRGBA_alpha img0 h

theorem canonicalOf_alpha (k : Kernel) (img0 : Image) (hk : PreservesConst k)
    (h : img0.mode ≠ Mode.RGBA) : ∀ x y, (canonicalOf k img0).a x y = 255 := by
  have h1 : ∀ x y, (normalizeMode img0).a x y = 255 := normalizeMode_alpha img0 h
  rw [canonicalOf]
  split
  · simp only [Image.resize]
    exact fun x y => hk _ 255 _ _ _ h1 x y
  · exact h1

theorem emitLoop_alpha (k : Kernel) (wOk : String → Bool) (base : String) (img : Image)
    (l : List (Nat × Nat)) (hk : PreservesConst k) (ha : ∀ x y, img.a x y = 255) :
    ∀ w ∈ (emitLoop k wOk base img l).writes, ∀ sz i, w.2 = FileData.ico sz i →
      ∀ x y, i.a x y = 255 := by
  intro w hw sz i hwi
  obtain ⟨s, _, hws⟩ := emitLoop_writes_shape k wOk base img l w hw
  subst hws
  simp only at hwi
  cases hwi
  simp only [Image.resize]
  exact fun x y => hk _ 255 _ _ _ ha x y

theorem lookup_setFile (fs : List (String × FileData)) (name : String) (d : FileData) :
    (setFile fs name d).lookup name = some d := by
  simp [setFile, List.lookup]

theorem emitLoop_none_writes (k : Kernel) (wOk : String → Bool) (base : String)
    (img : Image) (l : List (Nat × Nat))
    (h : (emitLoop k wOk base img l).failure = none) :
    (emitLoop k wOk base img l).writes =
      l.map (fun sz =>
        (outName base sz, FileData.ico sz (Image.resize k img sz Filter.LANCZOS))) := by
  induction l with
  | nil => rfl
  | cons sz rest ih =>
    by_cases hsz : wOk (outName base sz) = true
    · simp only [emitLoop, hsz, if_true] at h ⊢
      simp only [List.map_cons, List.cons.injEq, true_and]
      exact ih h
    · simp [emitLoop, hsz] at h

theorem outName_eq_32 (base : String) : outName base (32, 32) = base ++ "_32.ico" := rfl

theorem outName_eq_64 (base : String) : outName base (64, 64) = base ++ "_64.ico" := rfl

theorem outName_eq_128 (base : String) :
    outName base (128, 128) = base ++ "_128.ico" := rfl

theorem outName_eq_256 (base : String) :
    outName base (256, 256) = base ++ "_256.ico" := rfl

theorem normalizeMode_width (img : Image) :
    (normalizeMode img).width = img.width := by
  rw [normalizeMode]
  split
  · exact convertRGBA_width img
  · rfl

theorem normalizeMode_height (img : Image) :
    (normalizeMode img).height = img.height := by
  rw [normalizeMode]
  split
  · exact convertRGBA_height img
  · rfl

theorem normalizeMode_convertRGBA (img : Image) :
    normalizeMode img.convertRGBA = img.convertRGBA := by
  rw [normalizeMode, if_neg]
  simp [convertRGBA_mode]

theorem append_ne_of_ne (base s1 s2 : String) (h : s1 ≠ s2) :
    base ++ s1 ≠ base ++ s2 := by
  intro he
  apply h
  have hd := congrArg String.data he
  simp only [String.data_append] at hd
  exact String.ext (List.append_cancel_left hd)

theorem outName_inj_on_sizes (base : String) (s t : Nat × Nat)
    (hs : s ∈ sizes) (ht : t ∈ sizes) (hst : outName base s = outName base t) :
    s = t := by
  fin_cases hs <;> fin_cases ht <;>
    first
      | rfl
      | exact absurd hst (append_ne_of_ne base _ _ (by decide))

theorem sizes_names_nodup (base : String) :
    (sizes.map (fun s => outName base s)).Nodup := by
  refine List.Nodup.map_on ?_ (by decide)
  intro s hs t ht hst
  exact outName_inj_on_sizes base s t hs ht hst

theorem lookup_filter_ne (fs : List (String × FileData)) (n1 nm : String)
    (h : nm ≠ n1) :
    (fs.filter (fun p => p.1 != n1)).lookup nm = fs.lookup nm := by
  induction fs with
  | nil => rfl
  | cons p rest ih =>
    by_cases hp : p.1 = n1
    · have hb : (p.1 != n1) = false := by simp [hp]
      have hnm : (nm == p.1) = false := by simp [hp, h]
      simp [List.filter_cons, hb, List.lookup, hnm, ih]
    · have hb : (p.1 != n1) = true := by simp [hp]
      by_cases hnp : nm = p.1
      · simp [List.filter_cons, hb, List.lookup, hnp]
      · have hnm : (nm == p.1) = false := by simp [hnp]
        simp [List.filter_cons, hb, List.lookup, hnm, ih]

theorem lookup_setFile_ne (fs : List (String × FileData)) (n1 nm : String)
    (d : FileData) (h : nm ≠ n1) :
    (setFile fs n1 d).lookup nm = fs.lookup nm := by
  have hnm : (nm == n1) = false := by simp [h]
  simp only [setFile, List.lookup, hnm]
  exact lookup_filter_ne fs n1 nm h

theorem lookup_foldl_setFile_notmem (ws : List (String × FileData))
    (fs0 : List (String × FileData)) (nm : String) (h : nm ∉ ws.map Prod.fst) :
    (ws.foldl (fun fs w => setFile fs w.1 w.2) fs0).lookup nm = fs0.lookup nm := by
  induction ws generalizing fs0 with
  | nil => rfl
  | cons w rest ih =>
    simp only [List.map_cons, List.mem_cons, not_or] at h
    rw [List.foldl_cons, ih _ h.2]
    exact lookup_setFile_ne fs0 w.1 nm w.2 h.1

theorem lookup_foldl_setFile_mem (ws : List (String × FileData))
    (fs0 : List (String × FileData)) (nm : String) (dd : FileData)
    (hmem : (nm, dd) ∈ ws) (hnd : (ws.map Prod.fst).Nodup) :
    (ws.foldl (fun fs w => setFile fs w.1 w.2) fs0).lookup nm = some dd := by
  induction ws generalizing fs0 with
  | nil => cases hmem
  | cons w rest ih =>
    simp only [List.map_cons, List.nodup_cons] at hnd
    rw [List.foldl_cons]
    rcases List.mem_cons.mp hmem with he | hmem2
    · have hw : w = (nm, dd) := he.symm
      subst hw
      have hnotin : nm ∉ rest.map Prod.fst := hnd.1
      rw [lookup_foldl_setFile_notmem rest _ nm hnotin]
      exact lookup_setFile fs0 nm dd
    · exact ih _ hmem2 hnd.2

/-! ### Claims -/

/-- Claim C1: for every valid decodable input, a successful run of the
convert operation writes exactly four icon files named stem_32.ico,
stem_64.ico, stem_128.ico, stem_256.ico, with pixel dimensions 32x32,
64x64, 128x128, 256x256 respectively, emitted in the fixed order
32, 64, 128, 256, and returns success. -/
theorem claim1_four_outputs (env : Env) (input : String) (outp : Option String)
    (h : (generate_ico env input outp).ok = true) :
    (generate_ico env input outp).writes.length = 4 ∧
    (generate_ico env input outp).writes.map writeInfo =
      [(stemOf input outp ++ "_32.ico", some ((32, 32), (32, 32))),
       (stemOf input outp ++ "_64.ico", some ((64, 64), (64, 64))),
       (stemOf input outp ++ "_128.ico", some ((128, 128), (128, 128))),
       (stemOf input outp ++ "_256.ico", some ((256, 256), (256, 256)))] := by
  rcases h1 : env.fs.lookup input with _ | d
  · unfold generate_ico at h
    rw [h1] at h
    simp at h
  · rcases h2 : d.decode with _ | img0
    · unfold generate_ico at h
      rw [h1] at h
      simp only at h
      rw [h2] at h
      simp at h
    · rw [generate_ico_of_decode env input outp d img0 h1 h2] at h ⊢
      simp only [Option.isNone_iff_eq_none] at h
      rw [emitLoop_none_writes _ _ _ _ _ h]
      constructor
      · simp [sizes]
      · simp only [sizes, List.map_cons, List.map_nil, writeInfo, Image.resize]
        rw [outName_eq_32, outName_eq_64, outName_eq_128, outName_eq_256]

/-- Claim C2: for every input path that does not reference an existing
file, the convert operation returns failure with a not-found report,
creates zero files, leaves the filesystem unchanged, and (being a total
function of its inputs) lets no exception escape the existence check. -/
theorem claim2_missing_input (env : Env) (input : String) (outp : Option String)
    (h : env.fs.lookup input = none) :
    generate_ico env input outp = ⟨false, [Msg.errNotFound input], []⟩ ∧
    fsAfter env (generate_ico env input outp) = env.fs := by
  have he : generate_ico env input outp = ⟨false, [Msg.errNotFound input], []⟩ := by
    unfold generate_ico
    rw [h]
  exact ⟨he, by rw [he]; rfl⟩

/-- Claim C3: every failure inside the conversion is caught and reported:
the process exit code is always 0 or 1 — 1 exactly on a missing argument,
a missing input, or any conversion failure — a decode failure and a write
failure both yield a `False` return with the underlying message on the
console, and no unhandled fault escapes. -/
theorem claim3_controlled_exit (env : Env) (argv : List String) :
    ((mainRun env argv).1 = 0 ∨ (mainRun env argv).1 = 1) ∧
    (argv.length < 2 → (mainRun env argv).1 = 1) ∧
    (∀ prog input rest, argv = prog :: input :: rest →
      (mainRun env argv).1 =
        if (generate_ico env input rest.head?).ok then 0 else 1) ∧
    (∀ input outp d, env.fs.lookup input = some d → d.decode = none →
      (generate_ico env input outp).ok = false ∧
      Msg.err "cannot identify image file" ∈ (generate_ico env input outp).console) ∧
    (∀ input outp d img0 e, env.fs.lookup input = some d → d.decode = some img0 →
      (emitLoop env.kernel env.writeOk (stemOf input outp)
        (canonicalOf env.kernel img0) sizes).failure = some e →
      (generate_ico env input outp).ok = false ∧
      Msg.err e ∈ (generate_ico env input outp).console) := by
  refine ⟨?_, ?_, ?_, ?_, ?_⟩
  · match argv with
    | [] => exact Or.inr rfl
    | [_] => exact Or.inr rfl
    | _ :: _ :: _ =>
      simp only [mainRun]
      split
      · exact Or.inl rfl
      · exact Or.inr rfl
  · intro hlen
    match argv, hlen with
    | [], _ => rfl
    | [_], _ => rfl
    | _ :: _ :: _, hlen => exact absurd hlen (by simp)
  · intro prog input rest hargv
    subst hargv
    rfl
  · intro input outp d hd hdec
    have he : generate_ico env input outp =
        ⟨false, [Msg.err "cannot identify image file"], []⟩ := by
      unfold generate_ico
      rw [hd]
      simp only
      rw [hdec]
    rw [he]
    exact ⟨rfl, by simp⟩
  · intro input outp d img0 e hd hdec hf
    rw [generate_ico_of_decode env input outp d img0 hd hdec]
    rw [hf]
    exact ⟨rfl, by simp [tailMsg]⟩

/-- Claim C4 counterexample: the claim fails when outputBase is supplied
as the empty string. Python truthiness treats the empty string as absent,
so the stem is derived from the input path and the produced file names do
depend on the input file's own name even though an output base was given:
two runs with the same supplied output base but different input names
produce differently named files, and the stem is not the extension-stripped
output base. -/
theorem claim4_counterexample :
    (generate_ico envA "logo.png" (some "")).writes.map Prod.fst =
      ["logo_32.ico", "logo_64.ico", "logo_128.ico", "logo_256.ico"] ∧
    (generate_ico envB "pic.png" (some "")).writes.map Prod.fst =
      ["pic_32.ico", "pic_64.ico", "pic_128.ico", "pic_256.ico"] ∧
    stemOf "logo.png" (some "") ≠ splitextRoot "" := by
  refine ⟨rfl, rfl, by decide⟩

/-- Claim C4 amended: when outputBase is supplied and non-empty, the stem
used for all four output names is outputBase with any extension stripped,
independent of the input path; an outputBase that is absent or equal to the
empty string yields the stem of inputPath instead, the empty string
behaving exactly as an absent argument. -/
theorem claim4_amended_stem (env : Env) (input s : String) (hs : s ≠ "") :
    stemOf input (some s) = splitextRoot s ∧
    (∀ input2 : String, stemOf input2 (some s) = stemOf input (some s)) ∧
    generate_ico env input (some "") = generate_ico env input none ∧
    stemOf input none = splitextRoot input ∧
    (∀ w ∈ (generate_ico env input (some s)).writes, ∃ sz ∈ sizes,
      w.1 = outName (splitextRoot s) sz) := by
  have hstem : stemOf input (some s) = splitextRoot s := by
    simp [stemOf, truthy, hs]
  refine ⟨hstem, ?_, ?_, ?_, ?_⟩
  · intro input2
    rw [hstem]
    simp [stemOf, truthy, hs]
  · rfl
  · simp [stemOf, truthy]
  · intro w hw
    rcases h1 : env.fs.lookup input with _ | d
    · unfold generate_ico at hw
      rw [h1] at hw
      simp at hw
    · rcases h2 : d.decode with _ | img0
      · unfold generate_ico at hw
        rw [h1] at hw
        simp only at hw
        rw [h2] at hw
        simp at hw
      · rw [generate_ico_of_decode env input (some s) d img0 h1 h2] at hw
        obtain ⟨sz, hsz, hws⟩ := emitLoop_writes_shape _ _ _ _ _ w hw
        refine ⟨sz, hsz, ?_⟩
        rw [hws, hstem]

/-- Claim C5: every emitted bitmap is produced by resizing the canonical
256x256 bitmap to the target size with the LANCZOS filter — the same
filter the canonicalization resize uses — and not by resizing the
original-resolution image: the source of every per-size resize has
dimensions 256x256. -/
theorem claim5_resize_from_canonical (env : Env) (input : String)
    (outp : Option String) (d : FileData) (img0 : Image)
    (h1 : env.fs.lookup input = some d) (h2 : d.decode = some img0) :
    (canonicalOf env.kernel img0).width = 256 ∧
    (canonicalOf env.kernel img0).height = 256 ∧
    ((normalizeMode img0).width ≠ 256 ∨ (normalizeMode img0).height ≠ 256 →
      canonicalOf env.kernel img0 =
        Image.resize env.kernel (normalizeMode img0) (256, 256) Filter.LANCZOS) ∧
    (∀ w ∈ (generate_ico env input outp).writes, ∃ sz ∈ sizes,
      w = (outName (stemOf input outp) sz,
        FileData.ico sz
          (Image.resize env.kernel (canonicalOf env.kernel img0) sz
            Filter.LANCZOS))) := by
  refine ⟨canonicalOf_width env.kernel img0, canonicalOf_height env.kernel img0,
    ?_, ?_⟩
  · intro hcond
    rw [canonicalOf, if_pos hcond]
  · intro w hw
    rw [generate_ico_of_decode env input outp d img0 h1 h2] at hw
    exact emitLoop_writes_shape _ _ _ _ _ w hw

/-- Claim C6: every decoded image whose pixel format is not RGBA is
converted to RGBA before any resizing, the conversion being lossless for
the color data — an RGB input keeps its three color bands, a grayscale
input has its gray band replicated across them — and installing a fully
opaque alpha channel; the whole run is identical to a run on the
pre-converted image, and, for any kernel that preserves constant bands,
every emitted bitmap has a fully opaque alpha channel everywhere. -/
theorem claim6_rgba_normalization (env : Env) (input : String)
    (outp : Option String) (d : FileData) (img0 : Image)
    (h1 : env.fs.lookup input = some d) (h2 : d.decode = some img0)
    (h3 : img0.mode ≠ Mode.RGBA) (hk : PreservesConst env.kernel) :
    (normalizeMode img0 = img0.convertRGBA ∧
     img0.convertRGBA.mode = Mode.RGBA ∧
     (∀ x y, img0.convertRGBA.a x y = 255)) ∧
    (img0.mode = Mode.RGB →
      img0.convertRGBA.r = img0.r ∧ img0.convertRGBA.g = img0.g ∧
      img0.convertRGBA.b = img0.b) ∧
    (img0.mode = Mode.L →
      img0.convertRGBA.r = img0.r ∧ img0.convertRGBA.g = img0.r ∧
      img0.convertRGBA.b = img0.r) ∧
    generate_ico env input outp =
      generate_ico
        { env with fs := setFile env.fs input (FileData.image img0.convertRGBA) }
        input outp ∧
    (∀ w ∈ (generate_ico env input outp).writes, ∀ sz i,
      w.2 = FileData.ico sz i → ∀ x y, i.a x y = 255) := by
  have hne : img0.mode ≠ Mode.RGBA := h3
  have hnorm : normalizeMode img0 = img0.convertRGBA := by
    rw [normalizeMode, if_pos hne]
  refine ⟨⟨hnorm, convertRGBA_mode img0, convertRGBA_alpha img0 hne⟩,
    ?_, ?_, ?_, ?_⟩
  · intro hRGB
    refine ⟨?_, ?_, ?_⟩ <;> simp [Image.convertRGBA, hRGB]
  · intro hL
    refine ⟨?_, ?_, ?_⟩ <;> simp [Image.convertRGBA, hL]
  · have h1b : ({ env with
        fs := setFile env.fs input (FileData.image img0.convertRGBA) } : Env).fs.lookup
          input = some (FileData.image img0.convertRGBA) :=
      lookup_setFile env.fs input (FileData.image img0.convertRGBA)
    rw [generate_ico_of_decode env input outp d img0 h1 h2,
      generate_ico_of_decode _ input outp _ img0.convertRGBA h1b rfl]
    have hcan : canonicalOf env.kernel img0 = canonicalOf env.kernel img0.convertRGBA := by
      rw [canonicalOf, canonicalOf, normalizeMode_convertRGBA, hnorm]
    have hadj : adjNotices img0 = adjNotices img0.convertRGBA := by
      rw [adjNotices, adjNotices, normalizeMode_convertRGBA, hnorm]
    rw [hcan, hadj]
  · intro w hw sz i hwi
    rw [generate_ico_of_decode env input outp d img0 h1 h2] at hw
    exact emitLoop_alpha env.kernel env.writeOk (stemOf input outp)
      (canonicalOf env.kernel img0) sizes hk
      (canonicalOf_alpha env.kernel img0 hk hne) w hw sz i hwi

/-- Claim C7: an input already exactly 256x256 undergoes no
canonicalization resize and triggers no size-adjustment notice, yet still
produces all four outputs correctly when every write succeeds; an input
whose dimensions differ from 256x256 in either coordinate is resized to
256x256 and the notice naming the original and target dimensions is
printed. -/
theorem claim7_canonicalization_idempotent (env : Env) (input : String)
    (outp : Option String) (d : FileData) (img0 : Image)
    (h1 : env.fs.lookup input = some d) (h2 : d.decode = some img0) :
    (img0.width = 256 → img0.height = 256 →
      canonicalOf env.kernel img0 = normalizeMode img0 ∧
      (∀ s t, Msg.adjust s t ∉ (generate_ico env input outp).console) ∧
      ((∀ f, env.writeOk f = true) →
        (generate_ico env input outp).ok = true ∧
        (generate_ico env input outp).writes.map writeInfo =
          [(stemOf input outp ++ "_32.ico", some ((32, 32), (32, 32))),
           (stemOf input outp ++ "_64.ico", some ((64, 64), (64, 64))),
           (stemOf input outp ++ "_128.ico", some ((128, 128), (128, 128))),
           (stemOf input outp ++ "_256.ico", some ((256, 256), (256, 256)))])) ∧
    (img0.width ≠ 256 ∨ img0.height ≠ 256 →
      canonicalOf env.kernel img0 =
        Image.resize env.kernel (normalizeMode img0) (256, 256) Filter.LANCZOS ∧
      Msg.adjust (img0.width, img0.height) (256, 256) ∈
        (generate_ico env input outp).console) := by
  constructor
  · intro hW hH
    have hcond : ¬((normalizeMode img0).width ≠ 256 ∨
        (normalizeMode img0).height ≠ 256) := by
      rw [normalizeMode_width, normalizeMode_height, hW, hH]
      simp
    have hadj : adjNotices img0 = [] := by
      rw [adjNotices, if_neg hcond]
    refine ⟨by rw [canonicalOf, if_neg hcond], ?_, ?_⟩
    · intro s t hmem
      rw [generate_ico_of_decode env input outp d img0 h1 h2] at hmem
      simp only [ConvertResult.mk.injEq] at hmem
      simp only [hadj, List.nil_append, List.mem_append, List.mem_singleton] at hmem
      rcases hmem with hmem | hmem
      · exact emitLoop_no_adjust _ _ _ _ _ s t hmem
      · rcases hfl : (emitLoop env.kernel env.writeOk (stemOf input outp)
            (canonicalOf env.kernel img0) sizes).failure with _ | e
        · rw [hfl] at hmem
          simp [tailMsg] at hmem
        · rw [hfl] at hmem
          simp [tailMsg] at hmem
    · intro hwAll
      rw [generate_ico_of_decode env input outp d img0 h1 h2]
      rw [emitLoop_all_ok env.kernel env.writeOk (stemOf input outp)
        (canonicalOf env.kernel img0) sizes (fun sz _ => hwAll _)]
      refine ⟨rfl, ?_⟩
      simp only [sizes, List.map_cons, List.map_nil, writeInfo, Image.resize]
      rw [outName_eq_32, outName_eq_64, outName_eq_128, outName_eq_256]
  · intro hne
    have hcond : (normalizeMode img0).width ≠ 256 ∨
        (normalizeMode img0).height ≠ 256 := by
      rw [normalizeMode_width, normalizeMode_height]
      exact hne
    refine ⟨by rw [canonicalOf, if_pos hcond], ?_⟩
    rw [generate_ico_of_decode env input outp d img0 h1 h2]
    have hadj : adjNotices img0 =
        [Msg.adjust (img0.width, img0.height) (256, 256)] := by
      rw [adjNotices, if_pos hcond, normalizeMode_width, normalizeMode_height]
    simp [hadj]

/-- Claim C8: if the write for some size fails partway through the
emission loop, the operation returns failure, exactly the files for the
earlier sizes were written and remain on disk with no rollback, and the
returned value is the same failure value produced by a run in which no
file can be written at all. -/
theorem claim8_partial_writes (env env2 : Env) (input : String)
    (outp : Option String) (d : FileData) (img0 : Image)
    (pre : List (Nat × Nat)) (sz : Nat × Nat) (suf : List (Nat × Nat))
    (h1 : env.fs.lookup input = some d) (h2 : d.decode = some img0)
    (hsplit : sizes = pre ++ sz :: suf)
    (hpre : ∀ s ∈ pre, env.writeOk (outName (stemOf input outp) s) = true)
    (hsz : env.writeOk (outName (stemOf input outp) sz) = false)
    (henv2 : env2.writeOk (outName (stemOf input outp) (32, 32)) = false) :
    (generate_ico env input outp).ok = false ∧
    (generate_ico env input outp).writes =
      pre.map (fun s => (outName (stemOf input outp) s,
        FileData.ico s (Image.resize env.kernel (canonicalOf env.kernel img0) s
          Filter.LANCZOS))) ∧
    (∀ s ∈ pre,
      (fsAfter env (generate_ico env input outp)).lookup
          (outName (stemOf input outp) s) =
        some (FileData.ico s
          (Image.resize env.kernel (canonicalOf env.kernel img0) s
            Filter.LANCZOS))) ∧
    (env2.fs = env.fs → env2.kernel = env.kernel →
      (generate_ico env2 input outp).writes = [] ∧
      (generate_ico env2 input outp).ok = (generate_ico env input outp).ok) := by
  have hgi : generate_ico env input outp =
      ⟨false,
       adjNotices img0 ++
         pre.map (fun s => Msg.generated (outName (stemOf input outp) s) s) ++
         [Msg.err ("cannot write " ++ outName (stemOf input outp) sz)],
       pre.map (fun s => (outName (stemOf input outp) s,
         FileData.ico s (Image.resize env.kernel (canonicalOf env.kernel img0) s
           Filter.LANCZOS)))⟩ := by
    rw [generate_ico_of_decode env input outp d img0 h1 h2, hsplit,
      emitLoop_fail_at env.kernel env.writeOk (stemOf input outp)
        (canonicalOf env.kernel img0) pre sz suf hpre hsz]
    rfl
  refine ⟨by rw [hgi], by rw [hgi], ?_, ?_⟩
  · intro s hs
    rw [hgi]
    have hmem : (outName (stemOf input outp) s,
        FileData.ico s (Image.resize env.kernel (canonicalOf env.kernel img0) s
          Filter.LANCZOS)) ∈
        pre.map (fun s => (outName (stemOf input outp) s,
          FileData.ico s (Image.resize env.kernel (canonicalOf env.kernel img0) s
            Filter.LANCZOS))) :=
      List.mem_map_of_mem _ hs
    have hnames : (pre.map (fun s => outName (stemOf input outp) s)).Nodup := by
      have hsub : (pre.map (fun s => outName (stemOf input outp) s)).Sublist
          (sizes.map (fun s => outName (stemOf input outp) s)) := by
        rw [hsplit, List.map_append]
        exact List.sublist_append_left _ _
      exact (sizes_names_nodup (stemOf input outp)).sublist hsub
    have hnd : ((pre.map (fun s => (outName (stemOf input outp) s,
        FileData.ico s (Image.resize env.kernel (canonicalOf env.kernel img0) s
          Filter.LANCZOS)))).map Prod.fst).Nodup := by
      rw [List.map_map]
      exact hnames
    exact lookup_foldl_setFile_mem _ _ _ _ hmem hnd
  · intro hfs hker
    have h1b : env2.fs.lookup input = some d := by rw [hfs]; exact h1
    have hgi2 : generate_ico env2 input outp =
        ⟨false,
         adjNotices img0 ++ [Msg.err ("cannot write " ++
           outName (stemOf input outp) (32, 32))],
         []⟩ := by
      rw [generate_ico_of_decode env2 input outp d img0 h1b h2]
      rw [show sizes = [] ++ (32, 32) :: [(64, 64), (128, 128), (256, 256)] from rfl]
      rw [emitLoop_fail_at env2.kernel env2.writeOk (stemOf input outp)
        (canonicalOf env2.kernel img0) [] (32, 32) [(64, 64), (128, 128), (256, 256)]
        (by intro s hs; cases hs) henv2]
      simp [tailMsg]
    rw [hgi2, hgi]
    exact ⟨rfl, rfl⟩

/-- Claim C10: for every decodable input the canonical working bitmap has
dimensions exactly 256x256 regardless of the input's original aspect
ratio — a non-square input is stretched to the square target by a
full-image resize with no cropping or padding — and this canonical bitmap
is the source of every subsequent per-size resize. -/
theorem claim10_canonical_invariant (env : Env) (input : String)
    (outp : Option String) (d : FileData) (img0 : Image)
    (h1 : env.fs.lookup input = some d) (h2 : d.decode = some img0) :
    (canonicalOf env.kernel img0).width = 256 ∧
    (canonicalOf env.kernel img0).height = 256 ∧
    (img0.width ≠ img0.height →
      canonicalOf env.kernel img0 =
        Image.resize env.kernel (normalizeMode img0) (256, 256) Filter.LANCZOS) ∧
    (generate_ico env input outp).writes =
      (emitLoop env.kernel env.writeOk (stemOf input outp)
        (canonicalOf env.kernel img0) sizes).writes ∧
    (∀ w ∈ (generate_ico env input outp).writes, ∃ sz ∈ sizes,
      w.2 = FileData.ico sz
        (Image.resize env.kernel (canonicalOf env.kernel img0) sz
          Filter.LANCZOS)) := by
  refine ⟨canonicalOf_width env.kernel img0, canonicalOf_height env.kernel img0,
    ?_, ?_, ?_⟩
  · intro hne
    have hcond : (normalizeMode img0).width ≠ 256 ∨
        (normalizeMode img0).height ≠ 256 := by
      rw [normalizeMode_width, normalizeMode_height]
      by_contra hc
      push_neg at hc
      exact hne (hc.1.trans hc.2.symm)
    rw [canonicalOf, if_pos hcond]
  · rw [generate_ico_of_decode env input outp d img0 h1 h2]
  · intro w hw
    rw [generate_ico_of_decode env input outp d img0 h1 h2] at hw
    obtain ⟨sz, hsz, hws⟩ := emitLoop_writes_shape _ _ _ _ _ w hw
    exact ⟨sz, hsz, by rw [hws]⟩

/-- Claim C9: resizing is deterministic — resizing equal bitmaps to equal
target sizes with equal filters through the same kernel yields identical
pixel data, and two runs of the whole conversion on the same inputs
coincide. -/
theorem claim9_resize_deterministic (k : Kernel) (img1 img2 : Image)
    (sz1 sz2 : Nat × Nat) (f1 f2 : Filter)
    (h1 : img1 = img2) (h2 : sz1 = sz2) (h3 : f1 = f2) :
    Image.resize k img1 sz1 f1 = Image.resize k img2 sz2 f2 ∧
    (∀ env input outp, generate_ico env input outp = generate_ico env input outp) := by
  subst h1
  subst h2
  subst h3
  exact ⟨rfl, fun _ _ _ => rfl⟩

/-! ### Witnesses -/

/-- Witness for claim C1: a concrete successful run on a 300x200 RGB input. -/
theorem claim1_four_outputs_witness :
    (generate_ico envA "logo.png" none).ok = true ∧
    ((generate_ico envA "logo.png" none).writes.length = 4 ∧
     (generate_ico envA "logo.png" none).writes.map writeInfo =
       [(stemOf "logo.png" none ++ "_32.ico", some ((32, 32), (32, 32))),
        (stemOf "logo.png" none ++ "_64.ico", some ((64, 64), (64, 64))),
        (stemOf "logo.png" none ++ "_128.ico", some ((128, 128), (128, 128))),
        (stemOf "logo.png" none ++ "_256.ico", some ((256, 256), (256, 256)))]) :=
  ⟨rfl, claim1_four_outputs envA "logo.png" none rfl⟩

/-- Witness for claim C2: a concrete run on a path that is not on disk. -/
theorem claim2_missing_input_witness :
    envA.fs.lookup "missing.png" = none ∧
    (generate_ico envA "missing.png" none =
        ⟨false, [Msg.errNotFound "missing.png"], []⟩ ∧
     fsAfter envA (generate_ico envA "missing.png" none) = envA.fs) :=
  ⟨rfl, claim2_missing_input envA "missing.png" none rfl⟩

/-- Witness for claim C3: concrete exit codes for a good run, a missing
argument, a corrupt input, and a failing write. -/
theorem claim3_controlled_exit_witness :
    ((mainRun envA ["prog", "logo.png"]).1 = 0 ∨
      (mainRun envA ["prog", "logo.png"]).1 = 1) ∧
    (mainRun envA ["prog"]).1 = 1 ∧
    (generate_ico envCorrupt "bad.png" none).ok = false ∧
    (generate_ico envFail "logo.png" none).ok = false :=
  ⟨(claim3_controlled_exit envA ["prog", "logo.png"]).1,
   (claim3_controlled_exit envA ["prog"]).2.1 (by decide),
   ((claim3_controlled_exit envCorrupt ["x"]).2.2.2.1 "bad.png" none
     FileData.corrupt rfl rfl).1,
   ((claim3_controlled_exit envFail ["x"]).2.2.2.2 "logo.png" none
     (FileData.image sampleImage) sampleImage "cannot write logo_128.ico"
     rfl rfl rfl).1⟩

/-- Witness for the amended claim C4: a concrete non-empty output base. -/
theorem claim4_amended_stem_witness :
    "myicon.ico" ≠ "" ∧
    stemOf "logo.png" (some "myicon.ico") = splitextRoot "myicon.ico" :=
  ⟨by decide,
   (claim4_amended_stem envA "logo.png" "myicon.ico" (by decide)).1⟩

/-- Witness for claim C5: the canonical bitmap of a concrete decodable
input is 256x256. -/
theorem claim5_resize_from_canonical_witness :
    (canonicalOf envA.kernel sampleImage).width = 256 ∧
    (canonicalOf envA.kernel sampleImage).height = 256 :=
  ⟨(claim5_resize_from_canonical envA "logo.png" none (FileData.image sampleImage)
      sampleImage rfl rfl).1,
   (claim5_resize_from_canonical envA "logo.png" none (FileData.image sampleImage)
      sampleImage rfl rfl).2.1⟩

/-- Witness for claim C6: conversion of a concrete RGB input yields RGBA
and keeps the red channel, and conversion of a concrete grayscale input
replicates the gray band into the green channel. -/
theorem claim6_rgba_normalization_witness :
    sampleImage.convertRGBA.mode = Mode.RGBA ∧
    sampleImage.convertRGBA.r = sampleImage.r ∧
    grayImage.convertRGBA.g = grayImage.r :=
  ⟨((claim6_rgba_normalization envA "logo.png" none (FileData.image sampleImage)
      sampleImage rfl rfl (by decide) (fun _ _ _ _ _ h _ _ => h _ _)).1).2.1,
   ((claim6_rgba_normalization envA "logo.png" none (FileData.image sampleImage)
      sampleImage rfl rfl (by decide) (fun _ _ _ _ _ h _ _ => h _ _)).2.1 rfl).1,
   ((claim6_rgba_normalization envL "gray.png" none (FileData.image grayImage)
      grayImage rfl rfl (by decide) (fun _ _ _ _ _ h _ _ => h _ _)).2.2.1 rfl).2.1⟩

/-- Witness for claim C7: a concrete 256x256 input is not resized during
canonicalization and its run succeeds. -/
theorem claim7_canonicalization_idempotent_witness :
    canonicalOf envSq.kernel squareImage = normalizeMode squareImage ∧
    (generate_ico envSq "icon.png" none).ok = true :=
  ⟨((claim7_canonicalization_idempotent envSq "icon.png" none
      (FileData.image squareImage) squareImage rfl rfl).1 rfl rfl).1,
   (((claim7_canonicalization_idempotent envSq "icon.png" none
      (FileData.image squareImage) squareImage rfl rfl).1 rfl rfl).2.2
      (fun _ => rfl)).1⟩

/-- Witness for claim C8: a concrete run in which the third write fails,
and a comparison run in which the first write already fails. -/
theorem claim8_partial_writes_witness :
    (generate_ico envFail "logo.png" none).ok = false ∧
    (generate_ico envNoWrite "logo.png" none).writes = [] :=
  ⟨(claim8_partial_writes envFail envNoWrite "logo.png" none
      (FileData.image sampleImage) sampleImage [(32, 32), (64, 64)] (128, 128)
      [(256, 256)] rfl rfl rfl (by decide) rfl rfl).1,
   ((claim8_partial_writes envFail envNoWrite "logo.png" none
      (FileData.image sampleImage) sampleImage [(32, 32), (64, 64)] (128, 128)
      [(256, 256)] rfl rfl rfl (by decide) rfl rfl).2.2.2 rfl rfl).1⟩

/-- Witness for claim C9: a concrete duplicated resize. -/
theorem claim9_resize_deterministic_witness :
    Image.resize nearestKernel sampleImage (32, 32) Filter.LANCZOS =
      Image.resize nearestKernel sampleImage (32, 32) Filter.LANCZOS :=
  (claim9_resize_deterministic nearestKernel sampleImage sampleImage (32, 32)
    (32, 32) Filter.LANCZOS Filter.LANCZOS rfl rfl rfl).1

/-- Witness for claim C10: the canonical bitmap of a concrete non-square
input is 256 wide and is the stretched full-image resize. -/
theorem claim10_canonical_invariant_witness :
    (canonicalOf envA.kernel sampleImage).width = 256 ∧
    canonicalOf envA.kernel sampleImage =
      Image.resize envA.kernel (normalizeMode sampleImage) (256, 256)
        Filter.LANCZOS :=
  ⟨(claim10_canonical_invariant envA "logo.png" none (FileData.image sampleImage)
      sampleImage rfl rfl).1,
   (claim10_canonical_invariant envA "logo.png" none (FileData.image sampleImage)
      sampleImage rfl rfl).2.2.1 (by decide)⟩

end GenerateIco
